import Mathlib

/-!
Verification of the yamcam5 add-on (CeC-HA-Addons repository).

This file gives a shallow embedding of the core of `src/yamcam5`:
the inference scoring pipeline (`yamcam_functions.py`), the sound-event
state machine (`update_sound_window`), the frame assembler and stderr
handling of `camera_audio_stream.py`, the supervisor monitor loop of
`yamcam_supervisor.py`, and the configuration validation of
`yamcam_config.py`.  Python floats are modelled as rationals (decimal
constants such as 0.05 are written `mkRat 1 20`), byte strings as lists
of naturals below 256, and module-global mutable state as explicit
state records.
-/

namespace Yamcam

/-! ## Scoring pipeline (`yamcam_functions.py`, lines 132-177)

Scores coming out of the classifier are floats; we model them as `ℚ`.
`class_names` is the taxonomy list; a class name is `"group.class"` and
the group is the text before the first dot (`class_name.split('.')[0]`).
-/

/-- Characters before the first `'.'` of a character list. -/
def groupChars : List Char → List Char
  | [] => []
  | c :: cs => if c = '.' then [] else c :: groupChars cs

/-- `class_name.split('.')[0]` : the group is the text before the first dot. -/
def groupOf (s : String) : String := String.mk (groupChars s.data)

/-- Insert one score at the tail of its group's bucket, keeping first-seen
group order — this is how the Python dict built with `setdefault(...).append`
behaves (insertion-ordered dict). -/
def insertScore (g : String) (sc : ℚ) : List (String × List ℚ) → List (String × List ℚ)
  | [] => [(g, [sc])]
  | (g', l) :: rest =>
      if g' = g then (g', l ++ [sc]) :: rest else (g', l) :: insertScore g sc rest

/-- `group_scores_by_prefix(filtered_scores, class_names)` (lines 132-138):
bucket the surviving `(index, score)` pairs by the group of
`class_names[index]`. -/
def group_scores_by_prefix (filtered : List (Nat × ℚ)) (class_names : List String) :
    List (String × List ℚ) :=
  filtered.foldl (fun acc p => insertScore (groupOf (class_names.getD p.1 "")) p.2 acc) []

/-- Python `max(scores)` on a non-empty list (the buckets built by
`group_scores_by_prefix` are never empty; on `[]` Python would raise). -/
def maxScore : List ℚ → ℚ
  | [] => 0
  | x :: xs => xs.foldl max x

/-- The body of the loop in `calculate_composite_scores`:
if `max_score > 0.7` the composite is `max_score`, otherwise
`min(max_score + 0.05 * len(scores), 0.95)`. -/
def composite_of (scores : List ℚ) : ℚ :=
  let max_score := maxScore scores
  if max_score > mkRat 7 10 then max_score
  else min (max_score + mkRat 1 20 * scores.length) (mkRat 19 20)

/-- `calculate_composite_scores(group_scores)` (lines 140-149). -/
def calculate_composite_scores (group_scores : List (String × List ℚ)) :
    List (String × ℚ) :=
  group_scores.map (fun p => (p.1, composite_of p.2))

/-- Stable insert for descending order by score: `x` goes in front of the
first strictly smaller element, after all earlier elements of equal score. -/
def insertDesc (x : String × ℚ) : List (String × ℚ) → List (String × ℚ)
  | [] => [x]
  | y :: ys => if y.2 < x.2 then x :: y :: ys else y :: insertDesc x ys

/-- `sorted(composite_scores, key=lambda x: x[1], reverse=True)` — Python's
sort is stable; a stable insertion sort produces the same list as any
stable descending sort by score. -/
def sortByScoreDesc (l : List (String × ℚ)) : List (String × ℚ) :=
  l.foldl (fun acc x => insertDesc x acc) []

/-- Scoring configuration: the module globals of `yamcam_config.py` that
`rank_sounds` reads.  `sounds_filters` is the post-validation filter map,
in which every group present carries a concrete `min_score`. -/
structure ScoringConfig where
  class_names : List String
  noise_threshold : ℚ
  top_k : Nat
  sounds_to_track : List String
  sounds_filters : List (String × ℚ)
  default_min_score : ℚ

/-- `sounds_filters.get(group, {}).get('min_score', default_min_score)`. -/
def minScoreFor (cfg : ScoringConfig) (g : String) : ℚ :=
  ((cfg.sounds_filters.lookup g).getD cfg.default_min_score)

/-- `rank_sounds(scores, camera_name)` (lines 151-177), on the score row
`scores[0]`.  The `shutdownSet` flag is the `shutdown_event.is_set()`
guard at the top.  Result entries model the `{'class': group,
'score': score}` dicts as pairs. -/
def rank_sounds (cfg : ScoringConfig) (shutdownSet : Bool) (scores0 : List ℚ) :
    List (String × ℚ) :=
  if shutdownSet then []
  else
    let filtered := scores0.enum.filter (fun p => cfg.noise_threshold ≤ p.2)
    if filtered.isEmpty then []
    else
      let group_dict := group_scores_by_prefix filtered cfg.class_names
      let composite_scores := calculate_composite_scores group_dict
      let sorted_composite := (sortByScoreDesc composite_scores).take cfg.top_k
      sorted_composite.filterMap (fun p =>
        if p.1 ∈ cfg.sounds_to_track ∧ minScoreFor cfg p.1 ≤ p.2 then
          some (p.1, p.2)
        else none)

/-! ## Sound event state machine (`yamcam_functions.py`, lines 179-226)

`update_sound_window` keeps, per `(camera, sound_class)`, a bounded deque
of detection booleans, an `active` flag, a decay counter and an event
count, and iterates the same code over every tracked group; the state of
one `(camera, group)` pair never reads another's, so we model the per-pair
step.  The decay counter is an `Int`: the code decrements it without a
floor (`decay_cam[sound_class] -= 1`). -/

/-- Event configuration from `yamcam_config.py`: `window_detect`,
`persistence`, `decay`. -/
structure EvCfg where
  window_detect : Nat
  persistence : Nat
  decay : Int

/-- An emitted event type (the `event_type` argument of `report_event`). -/
inductive SoundEvent where
  | start
  | stop
deriving DecidableEq, Repr

/-- Per-`(camera, sound_class)` mutable state: the detection deque
`window[sound_class]`, `active_sounds`, `decay_counters`, `event_counts`.
Fresh entries start absent: empty deque, `active.get(...) = False`,
no decay counter (modelled as 0, it is only read while active). -/
structure GroupState where
  window : List Bool
  active : Bool
  decayCtr : Int
  count : Nat
deriving DecidableEq, Repr

/-- The state for a pair not yet seen by `update_sound_window`. -/
def initGroup : GroupState := ⟨[], false, 0, 0⟩

/-- `deque(maxlen=window_detect).append(is_detected)`: append at the tail,
dropping from the left when over capacity. -/
def pushWindow (maxlen : Nat) (w : List Bool) (d : Bool) : List Bool :=
  let w' := w ++ [d]
  if maxlen < w'.length then w'.drop (w'.length - maxlen) else w'

/-- `window[sound_class].count(True)`. -/
def countTrue (w : List Bool) : Nat := w.count true

/-- One pass of the `for sound_class in sounds_to_track` body of
`update_sound_window` (lines 203-226) for one group, given whether the
group is in `detected_sounds` this window.  Returns the new state and
the events passed to `report_event` during the step.
(`last_detection_time` only records wall-clock timestamps and is not
modelled.) -/
def stepGroup (cfg : EvCfg) (s : GroupState) (detected : Bool) :
    GroupState × List SoundEvent :=
  let w := pushWindow cfg.window_detect s.window detected
  if cfg.persistence ≤ countTrue w then
    if s.active = false then
      ({ window := w, active := true, decayCtr := cfg.decay, count := s.count + 1 },
       [.start])
    else ({ s with window := w }, [])
  else
    if s.active then
      if detected then ({ s with window := w, decayCtr := cfg.decay }, [])
      else
        let d := s.decayCtr - 1
        if d ≤ 0 then ({ s with window := w, decayCtr := d, active := false }, [.stop])
        else ({ s with window := w, decayCtr := d }, [])
    else ({ s with window := w }, [])

/-- Iterate `stepGroup` over a stream of per-window detection booleans,
collecting the emitted events in order. -/
def runGroup (cfg : EvCfg) (s : GroupState) : List Bool → GroupState × List SoundEvent
  | [] => (s, [])
  | d :: ds =>
      let r := stepGroup cfg s d
      let rest := runGroup cfg r.1 ds
      (rest.1, r.2 ++ rest.2)

/-- `expect = true`: the next event must be a `start`; `expect = false`:
the next event must be a `stop`.  Expresses strict start/stop alternation
beginning with `start`. -/
def alternatesFrom : Bool → List SoundEvent → Prop
  | _, [] => True
  | true, .start :: rest => alternatesFrom false rest
  | false, .stop :: rest => alternatesFrom true rest
  | _, _ => False

/-! ## Frame assembler (`camera_audio_stream.py`, `read_stream`, lines 109-129)

The decoder writes little-endian signed 16-bit mono PCM on its stdout.
We model bytes as naturals below 256.  `read_stream` keeps `raw_audio`,
reads `self.process.stdout.read(self.buffer_size - len(raw_audio))` — so
a delivered chunk never exceeds the space left in the buffer — and when
`len(raw_audio) >= self.buffer_size` converts the buffer with
`np.frombuffer(raw_audio, dtype=np.int16)` and dispatches it, then
resets the buffer.  `buffer_size` is 31200 (`yamcam_supervisor.py`
line 37), i.e. 15600 samples. -/

/-- Decode one little-endian int16 sample from its unsigned value. -/
def toInt16 (n : Nat) : Int := if n < 32768 then (n : Int) else (n : Int) - 65536

/-- `np.frombuffer(bytes, dtype=np.int16)`: consecutive byte pairs, little
endian (a trailing unpaired byte cannot occur: the buffer is only
converted at exactly `buffer_size` bytes, which is even). -/
def bytesToSamples : List Nat → List Int
  | b0 :: b1 :: rest => toInt16 (b0 + 256 * b1) :: bytesToSamples rest
  | _ => []

/-- Re-encode one int16 sample as its two little-endian bytes. -/
def sampleBytes (z : Int) : List Nat :=
  [((z % 65536).toNat) % 256, ((z % 65536).toNat) / 256]

/-- Re-encode a waveform as little-endian int16 bytes. -/
def samplesToBytes (l : List Int) : List Nat := (l.map sampleBytes).flatten

/-- The accumulation loop of `read_stream` over a list of delivered
chunks: append each chunk to `raw_audio`; at `buffer_size` bytes emit
`np.frombuffer(raw_audio, np.int16)` and reset.  Returns the dispatched
waveforms in order and the final (partial, never dispatched) buffer. -/
def assemble (bufSize : Nat) (buf : List Nat) : List (List Nat) → List (List Int) × List Nat
  | [] => ([], buf)
  | c :: cs =>
      let buf' := buf ++ c
      if bufSize ≤ buf'.length then
        let r := assemble bufSize [] cs
        (bytesToSamples buf' :: r.1, r.2)
      else assemble bufSize buf' cs

/-- The read-size discipline of `read_stream`: each chunk returned by
`stdout.read(buffer_size - len(raw_audio))` has at most the requested
length.  `bl` is the buffer length when the chunk arrives. -/
def chunksOK (bufSize : Nat) : Nat → List (List Nat) → Prop
  | _, [] => True
  | bl, c :: cs =>
      c.length ≤ bufSize - bl ∧
      chunksOK bufSize (if bufSize ≤ bl + c.length then 0 else bl + c.length) cs

/-- All bytes of all chunks are below 256. -/
def bytesOK (chunks : List (List Nat)) : Prop :=
  ∀ c ∈ chunks, ∀ b ∈ c, b < 256

/-! ## Worker stop / stderr handling / supervisor monitor
(`camera_audio_stream.py` lines 101-207, `yamcam_supervisor.py` lines 69-82)

One process-wide `shutdown_event` (created in `yamcam_config.py`) is
shared by every `CameraAudioStream`, the supervisor and `log_summary`.
We model the system state as that flag, the supervisor's `running` flag,
and each stream's `running` flag keyed by camera name. -/

/-- Global state shared across the yamcam5 threads. -/
structure Sys where
  shutdownEvent : Bool
  supRunning : Bool
  streams : List (String × Bool)
deriving DecidableEq, Repr

/-- `self.streams.get(camera_name)` followed by `stream.running`
(a missing stream counts as not running). -/
def lookupRunning (sys : Sys) (cam : String) : Bool :=
  ((sys.streams.lookup cam).getD false)

/-- Set (or insert) the running flag of one stream. -/
def setRunning (cam : String) (b : Bool) : List (String × Bool) → List (String × Bool)
  | [] => [(cam, b)]
  | p :: rest => if p.1 = cam then (cam, b) :: rest else p :: setRunning cam b rest

/-- `CameraAudioStream.stop()` (lines 175-206): `if not self.running:
return` — otherwise clear `self.running` and set the process-wide
`shutdown_event` (line 180), then terminate the subprocess. -/
def stopStream (sys : Sys) (cam : String) : Sys :=
  if lookupRunning sys cam then
    { sys with shutdownEvent := true, streams := setRunning cam false sys.streams }
  else sys

/-- `c` occurs as a contiguous run at the head of `l`. -/
def startsWithChars : List Char → List Char → Bool
  | [], _ => true
  | _ :: _, [] => false
  | p :: ps, c :: cs => p = c && startsWithChars ps cs

/-- Python `pat in line`: `pat` occurs contiguously somewhere in `line`. -/
def hasSub (pat : List Char) : List Char → Bool
  | [] => startsWithChars pat []
  | l@(_ :: cs) => startsWithChars pat l || hasSub pat cs

/-- The fatal diagnostic substrings of `_handle_stderr_line`
(lines 153-173), in the order the `elif` chain tests them. -/
def fatalSubstrings : List String :=
  ["401 Unauthorized", "No route to host", "Connection refused",
   "403 Forbidden", "timed out"]

/-- Whether a decoded stderr line matches one of the fatal branches. -/
def isFatalLine (line : String) : Bool :=
  fatalSubstrings.any (fun p => hasSub p.data line.data)

/-- `_handle_stderr_line(line)`: a fatal substring calls `self.stop()`;
the ready marker and other lines only log or set the per-stream started
event, leaving the shared state unchanged. -/
def handleStderrLine (sys : Sys) (cam : String) (line : String) : Sys :=
  if isFatalLine line then stopStream sys cam else sys

/-- The `while` guard of the supervisor's `monitor_streams` (line 71):
`self.running and not self.shutdown_event.is_set()`. -/
def monitorGuard (sys : Sys) : Bool := sys.supRunning && !sys.shutdownEvent

/-- The `while` guard of a stream's `read_stream` (line 111) and
`read_stderr` (line 135): `self.running and not shutdown_event.is_set()`. -/
def readGuard (sys : Sys) (cam : String) : Bool :=
  lookupRunning sys cam && !sys.shutdownEvent

/-- The `while` guard of `log_summary` (`yamcam_functions.py` line 229):
`not shutdown_event.is_set()`. -/
def summaryGuard (sys : Sys) : Bool := !sys.shutdownEvent

/-- `start_stream(camera_name)` on the success path (lines 30-48):
a fresh `CameraAudioStream` is created, started, and recorded in
`self.streams` with `running = True`. -/
def startStream (sys : Sys) (cam : String) : Sys :=
  { sys with streams := setRunning cam true sys.streams }

/-- One 60-second tick of `monitor_streams` (lines 71-80): if the guard
still holds, walk the configured cameras, breaking out as soon as the
shutdown event is observed, and restart every stream that is missing or
not running; if the guard fails the loop exits without a tick. -/
def monitorTick (cams : List String) (sys : Sys) : Sys :=
  if monitorGuard sys then
    cams.foldl
      (fun acc cam =>
        if acc.shutdownEvent then acc
        else if lookupRunning acc cam then acc
        else startStream acc cam)
      sys
  else sys

/-! ## `read_stream` reaction to decoder exit (lines 109-129)

With `bufsize=0` and `O_NONBLOCK`, `self.process.stdout.read(n)` returns
bytes, `b''` at end-of-file (decoder exited), or `None` when no data is
ready; `BlockingIOError` can also be raised.  `b''` and `None` are both
falsy, so the `else: time.sleep(0.1)` branch treats end-of-file exactly
like an idle pipe. -/

/-- One result of the non-blocking `stdout.read`. -/
inductive ReadResult where
  | data (chunk : List Nat)
  | eof
  | wouldBlock
deriving DecidableEq, Repr

/-- State local to one worker's `read_stream` loop plus the flags its
guard reads. -/
structure RSState where
  running : Bool
  shutdownEvent : Bool
  rawAudio : List Nat
deriving DecidableEq, Repr

/-- One iteration of the `read_stream` loop (lines 111-128): if the guard
fails the loop ends (leaving `self.running` untouched); a chunk is
accumulated and possibly dispatched; `b''` (end-of-file) and `None` both
take the `time.sleep(0.1)` branch; `BlockingIOError` also only sleeps.
Returns the new state and the waveform dispatched to the analyze
callback, if any. -/
def readStreamStep (bufSize : Nat) (s : RSState) (r : ReadResult) :
    RSState × Option (List Int) :=
  if s.running && !s.shutdownEvent then
    match r with
    | .data c =>
        let raw := s.rawAudio ++ c
        if bufSize ≤ raw.length then ({ s with rawAudio := [] }, some (bytesToSamples raw))
        else ({ s with rawAudio := raw }, none)
    | .eof => (s, none)
    | .wouldBlock => (s, none)
  else (s, none)

/-- Iterate `readStreamStep` over successive read results, collecting the
dispatched waveforms. -/
def runReadStream (bufSize : Nat) (s : RSState) :
    List ReadResult → RSState × List (List Int)
  | [] => (s, [])
  | r :: rs =>
      let one := readStreamStep bufSize s r
      let rest := runReadStream bufSize one.1 rs
      (rest.1, (one.2.toList) ++ rest.2)

/-! ## Configuration loading (`yamcam_config.py`, lines 106-194)

We model the YAML values the claims are about.  A missing key or section
is `none`.  Floats are rationals; the Python ints are `Int`. -/

/-- The `general` section keys used by the scoring pipeline. -/
structure RawGeneral where
  default_min_score : Option ℚ
  noise_threshold : Option ℚ
  top_k : Option Int
deriving DecidableEq, Repr

/-- The `events` section. -/
structure RawEvents where
  window_detect : Option Int
  persistence : Option Int
  decay : Option Int
deriving DecidableEq, Repr

/-- The `sounds` section: `track` and `filters`; a filter entry's
`min_score` key may be absent (`settings.get('min_score')` then yields
`None`). -/
structure RawSounds where
  track : Option (List String)
  filters : Option (List (String × Option ℚ))
deriving DecidableEq, Repr

/-- The configuration file regions the claims are about.  `cameras`
models presence of the `cameras` section (its per-camera validation is
outside the claims). -/
structure RawConfig where
  general : RawGeneral
  events : Option RawEvents
  sounds : Option RawSounds
  cameras : Option (List String)
deriving DecidableEq, Repr

/-- How loading can abort the process: `sys.exit(1)` or an uncaught
exception (the module-level `TypeError` from `0.0 <= None`). -/
inductive LoadFailure where
  | fatalExit
  | uncaughtTypeError
deriving DecidableEq, Repr

/-- The module globals produced by a successful load. -/
structure Settings where
  default_min_score : ℚ
  noise_threshold : ℚ
  top_k : Int
  window_detect : Int
  persistence : Int
  decay : Int
  sounds_to_track : List String
  sounds_filters : List (String × ℚ)
  cameras : List String
deriving DecidableEq, Repr

/-- Lines 116 and 127-129: `general.get('default_min_score', 0.5)` then
range check into `[0, 1]` with fallback 0.5. -/
def loadDefaultMinScore (g : RawGeneral) : ℚ :=
  let v := g.default_min_score.getD (mkRat 1 2)
  if 0 ≤ v ∧ v ≤ 1 then v else mkRat 1 2

/-- Lines 117 and 130-132: `general.get('noise_threshold', 0.1)` then
range check into `[0, 1]` with fallback 0.1. -/
def loadNoiseThreshold (g : RawGeneral) : ℚ :=
  let v := g.noise_threshold.getD (mkRat 1 10)
  if 0 ≤ v ∧ v ≤ 1 then v else mkRat 1 10

/-- Lines 118 and 133-135: `general.get('top_k', 10)` then range check
into `[1, 20]` with fallback 10. -/
def loadTopK (g : RawGeneral) : Int :=
  let v := g.top_k.getD 10
  if 1 ≤ v ∧ v ≤ 20 then v else 10

/-- Lines 160-167: a missing `events` section is replaced by
`{'window_detect': 5, 'persistence': 3, 'decay': 15}`; each key then
defaults individually.  No range check is applied to any of the three. -/
def loadEvents (e? : Option RawEvents) : Int × Int × Int :=
  let e := e?.getD ⟨some 5, some 3, some 15⟩
  (e.window_detect.getD 5, e.persistence.getD 3, e.decay.getD 15)

/-- Lines 177-181: for each filters entry, `min_score = settings.get('min_score')`
then `if not (0.0 <= min_score <= 1.0)`.  When the key is absent the
chained comparison evaluates `0.0 <= None`, which raises `TypeError`;
otherwise an out-of-range value is replaced by `default_min_score`. -/
def validateFilters (dms : ℚ) :
    List (String × Option ℚ) → Except LoadFailure (List (String × ℚ))
  | [] => .ok []
  | (g, ms) :: rest =>
      match ms with
      | none => .error .uncaughtTypeError
      | some v =>
          let v' := if 0 ≤ v ∧ v ≤ 1 then v else dms
          match validateFilters dms rest with
          | .error e => .error e
          | .ok tail => .ok ((g, v') :: tail)

/-- The module-level load order of `yamcam_config.py`: general settings
(clamped), events settings (not range-checked), sounds track and filters
(filters loop may raise `TypeError`), then the `cameras` section whose
absence is `sys.exit(1)` (lines 186-194). -/
def loadConfig (c : RawConfig) : Except LoadFailure Settings :=
  let dms := loadDefaultMinScore c.general
  let nt := loadNoiseThreshold c.general
  let tk := loadTopK c.general
  let ev := loadEvents c.events
  let snds := c.sounds.getD ⟨none, none⟩
  match validateFilters dms (snds.filters.getD []) with
  | .error e => .error e
  | .ok fs =>
      match c.cameras with
      | none => .error .fatalExit
      | some cams =>
          .ok { default_min_score := dms, noise_threshold := nt, top_k := tk,
                window_detect := ev.1, persistence := ev.2.1, decay := ev.2.2,
                sounds_to_track := snds.track.getD [], sounds_filters := fs,
                cameras := cams }

/-! ## Concrete instances used by the boundary-scenario claims -/

/-- Scenario configuration of claim C6: `noise_threshold = 0.1`, one
tracked group `dog` with `min_score = 0.5`, three classes in `dog`. -/
def dogCfg : ScoringConfig :=
  { class_names := ["dog.small", "dog.medium", "dog.large"]
    noise_threshold := mkRat 1 10
    top_k := 10
    sounds_to_track := ["dog"]
    sounds_filters := [("dog", mkRat 1 2)]
    default_min_score := mkRat 1 2 }

/-! # Theorems -/

/-- C4, counterexample: a group whose only (noise-filter-passing) class
score is 0.96 gets composite score 0.96, which exceeds 0.95 — so the
claim that every composite score is at most 0.95 is false on the code
(`calculate_composite_scores` returns `max_score` unchanged whenever
`max_score > 0.7`). -/
theorem C4_counterexample :
    calculate_composite_scores [("dog", [mkRat 24 25])] = [("dog", mkRat 24 25)] ∧
    ¬ (mkRat 24 25 ≤ mkRat 19 20) := by
  constructor
  · norm_num [calculate_composite_scores, composite_of, maxScore]
  · decide

/-- C4 (amended): for every non-empty collection of class scores in a
group, the composite is at most 0.95 whenever the maximum class score is
at most 0.7 (the boosted branch is capped by `min(..., 0.95)`); and
whenever the maximum exceeds 0.7 the composite equals that maximum
(and so is only bounded by the maximum itself, not by 0.95). -/
theorem C4_composite_bounds (gs : List (String × List ℚ)) (p : String × List ℚ)
    (hp : p ∈ gs) (_hne : p.2 ≠ []) :
    (p.1, composite_of p.2) ∈ calculate_composite_scores gs ∧
    (maxScore p.2 ≤ mkRat 7 10 → composite_of p.2 ≤ mkRat 19 20) ∧
    (mkRat 7 10 < maxScore p.2 → composite_of p.2 = maxScore p.2) := by
  refine ⟨?_, ?_, ?_⟩
  · exact List.mem_map.mpr ⟨p, hp, rfl⟩
  · intro hle
    have : ¬ (maxScore p.2 > mkRat 7 10) := not_lt.mpr hle
    simp only [composite_of, if_neg this]
    exact min_le_right _ _
  · intro hgt
    simp only [composite_of, if_pos hgt]

/-- C4 witness: the amended theorem applied to the one-group input with
the single class score 0.4. -/
theorem C4_composite_bounds_witness :
    ((("dog", [mkRat 2 5]) ∈ [(("dog" : String), [mkRat 2 5])]) ∧
      ([mkRat 2 5] : List ℚ) ≠ []) ∧
    ((("dog" : String), composite_of [mkRat 2 5]) ∈
        calculate_composite_scores [("dog", [mkRat 2 5])] ∧
      (maxScore [mkRat 2 5] ≤ mkRat 7 10 → composite_of [mkRat 2 5] ≤ mkRat 19 20) ∧
      (mkRat 7 10 < maxScore [mkRat 2 5] →
        composite_of [mkRat 2 5] = maxScore [mkRat 2 5])) :=
  ⟨⟨by decide, by decide⟩,
   C4_composite_bounds [("dog", [mkRat 2 5])] ("dog", [mkRat 2 5]) (by decide) (by decide)⟩

/-- C6: with `noise_threshold = 0.1`, the tracked group `dog` with
`min_score = 0.5`, and score row `[0.05, 0.4, 0.55]` over three `dog`
classes, the 0.05 score is filtered out, the composite is
`min(0.55 + 0.05 * 2, 0.95) = 0.65`, and the group is admitted into the
result list because `0.65 ≥ 0.5`. -/
theorem C6_dog_scenario :
    rank_sounds dogCfg false [mkRat 1 20, mkRat 2 5, mkRat 11 20] =
      [("dog", mkRat 13 20)] ∧
    minScoreFor dogCfg "dog" ≤ mkRat 13 20 := by
  constructor
  · simp [dogCfg, rank_sounds, group_scores_by_prefix, insertScore, groupOf, groupChars,
      calculate_composite_scores, composite_of, maxScore, sortByScoreDesc, insertDesc,
      minScoreFor, List.enum, List.lookup, List.filterMap]
    norm_num
  · norm_num [minScoreFor, dogCfg, List.lookup]

/-- C3, counterexample: with `window_detect = 5`, `persistence = 2`,
`decay = 3`, after the detections `[T, T]` the group is active with
decay counter 3; the next window is NOT detected, yet the decay counter
stays 3 instead of dropping to 2 — the updated window `[T, T, F]` still
holds `persistence` trues, so `update_sound_window` takes the
`count(True) >= persistence` branch and never touches the counter. -/
theorem C3_counterexample :
    (runGroup ⟨5, 2, 3⟩ initGroup [true, true]).1.active = true ∧
    (runGroup ⟨5, 2, 3⟩ initGroup [true, true]).1.decayCtr = 3 ∧
    (stepGroup ⟨5, 2, 3⟩ (runGroup ⟨5, 2, 3⟩ initGroup [true, true]).1 false).1.decayCtr = 3 ∧
    ¬ (stepGroup ⟨5, 2, 3⟩ (runGroup ⟨5, 2, 3⟩ initGroup [true, true]).1 false).1.decayCtr = 2 := by
  decide

/-- C3 (amended): for an update step on an active `(source, group)`, the
sustain/decay/stop behaviour only applies when the updated window holds
fewer than `persistence` detections; in that case a detected window
resets the counter to `decay`, an undetected one decrements it by
exactly 1, and — provided the counter was at least 1 — the stop event is
emitted exactly in the step where the counter reaches 0, with `active`
becoming false in that same step.  When the updated window still holds
at least `persistence` detections, the counter and flag are unchanged
and no event is emitted. -/
theorem C3_active_step (cfg : EvCfg) (s : GroupState) (d : Bool)
    (ha : s.active = true) :
    (cfg.persistence ≤ countTrue (pushWindow cfg.window_detect s.window d) →
      (stepGroup cfg s d).1.decayCtr = s.decayCtr ∧
      (stepGroup cfg s d).1.active = true ∧
      (stepGroup cfg s d).2 = []) ∧
    (countTrue (pushWindow cfg.window_detect s.window d) < cfg.persistence →
      (d = true → (stepGroup cfg s d).1.decayCtr = cfg.decay ∧
        (stepGroup cfg s d).1.active = true ∧ (stepGroup cfg s d).2 = []) ∧
      (d = false → (stepGroup cfg s d).1.decayCtr = s.decayCtr - 1 ∧
        (1 ≤ s.decayCtr →
          ((stepGroup cfg s d).2 = [.stop] ↔ (stepGroup cfg s d).1.decayCtr = 0) ∧
          ((stepGroup cfg s d).1.active = false ↔ (stepGroup cfg s d).1.decayCtr = 0)))) := by
  constructor
  · intro hper
    simp [stepGroup, if_pos hper, ha]
  · intro hlt
    have hnper : ¬ (cfg.persistence ≤ countTrue (pushWindow cfg.window_detect s.window d)) :=
      not_le.mpr hlt
    constructor
    · rintro rfl
      simp [stepGroup, hnper, ha]
    · rintro rfl
      simp only [stepGroup, ha, if_neg hnper]
      by_cases hz : s.decayCtr - 1 ≤ 0
      · simp only [if_pos hz]
        refine ⟨by simp, fun hge => ?_⟩
        have h1 : s.decayCtr - 1 = 0 := by omega
        simp [h1]
      · simp only [if_neg hz]
        refine ⟨by simp, fun hge => ?_⟩
        have hne2 : ¬ (s.decayCtr - 1 = 0) := by omega
        simp [hne2]

/-- C3 witness: the amended theorem applied to the active state reached
by `[T, T]` under `window_detect = 5`, `persistence = 2`, `decay = 3`,
stepped with a detected window. -/
theorem C3_active_step_witness :
    ((⟨[true, true], true, 3, 1⟩ : GroupState).active = true) ∧
    ((2 ≤ countTrue (pushWindow 5 [true, true] true) →
      (stepGroup ⟨5, 2, 3⟩ ⟨[true, true], true, 3, 1⟩ true).1.decayCtr = 3 ∧
      (stepGroup ⟨5, 2, 3⟩ ⟨[true, true], true, 3, 1⟩ true).1.active = true ∧
      (stepGroup ⟨5, 2, 3⟩ ⟨[true, true], true, 3, 1⟩ true).2 = []) ∧
    (countTrue (pushWindow 5 [true, true] true) < 2 →
      (true = true → (stepGroup ⟨5, 2, 3⟩ ⟨[true, true], true, 3, 1⟩ true).1.decayCtr = 3 ∧
        (stepGroup ⟨5, 2, 3⟩ ⟨[true, true], true, 3, 1⟩ true).1.active = true ∧
        (stepGroup ⟨5, 2, 3⟩ ⟨[true, true], true, 3, 1⟩ true).2 = []) ∧
      (true = false →
        (stepGroup ⟨5, 2, 3⟩ ⟨[true, true], true, 3, 1⟩ true).1.decayCtr = 3 - 1 ∧
        (1 ≤ (3 : Int) →
          ((stepGroup ⟨5, 2, 3⟩ ⟨[true, true], true, 3, 1⟩ true).2 = [.stop] ↔
            (stepGroup ⟨5, 2, 3⟩ ⟨[true, true], true, 3, 1⟩ true).1.decayCtr = 0) ∧
          ((stepGroup ⟨5, 2, 3⟩ ⟨[true, true], true, 3, 1⟩ true).1.active = false ↔
            (stepGroup ⟨5, 2, 3⟩ ⟨[true, true], true, 3, 1⟩ true).1.decayCtr = 0))))) :=
  ⟨by decide, C3_active_step ⟨5, 2, 3⟩ ⟨[true, true], true, 3, 1⟩ true (by decide)⟩

/-- Each step emits at most one event: none (flag unchanged), one start
(inactive to active), or one stop (active to inactive). -/
theorem stepGroup_cases (cfg : EvCfg) (s : GroupState) (d : Bool) :
    ((stepGroup cfg s d).2 = [] ∧ (stepGroup cfg s d).1.active = s.active) ∨
    ((stepGroup cfg s d).2 = [.start] ∧ s.active = false ∧
      (stepGroup cfg s d).1.active = true) ∨
    ((stepGroup cfg s d).2 = [.stop] ∧ s.active = true ∧
      (stepGroup cfg s d).1.active = false) := by
  simp only [stepGroup]
  split_ifs with h1 h2 h3 h4 h5 <;> simp_all

/-- Alternation is an invariant of the run: from any state, the events
emitted expecting `start` first iff the state is inactive. -/
theorem runGroup_alternatesFrom (cfg : EvCfg) :
    ∀ (ds : List Bool) (s : GroupState),
      alternatesFrom (!s.active) (runGroup cfg s ds).2 := by
  intro ds
  induction ds with
  | nil => intro s; simp [runGroup, alternatesFrom]
  | cons d ds ih =>
      intro s
      simp only [runGroup]
      rcases stepGroup_cases cfg s d with ⟨he, hact⟩ | ⟨he, hs, hact⟩ | ⟨he, hs, hact⟩
      · have h2 := ih (stepGroup cfg s d).1
        rw [hact] at h2
        rw [he]
        simpa using h2
      · have h2 := ih (stepGroup cfg s d).1
        rw [hact] at h2
        rw [he, hs]
        simpa [alternatesFrom] using h2
      · have h2 := ih (stepGroup cfg s d).1
        rw [hact] at h2
        rw [he, hs]
        simpa [alternatesFrom] using h2

/-- C7: for every configuration and every detection stream fed to the
event state machine from the initial (inactive) state, the emitted
events strictly alternate beginning with `start`: every `stop` is
preceded by a matching unmatched `start`, and no two `start`s or two
`stop`s occur without the other event type in between. -/
theorem C7_start_stop_alternate (cfg : EvCfg) (ds : List Bool) :
    alternatesFrom true (runGroup cfg initGroup ds).2 := by
  have := runGroup_alternatesFrom cfg ds initGroup
  simpa [initGroup] using this

/-- One little-endian int16 sample re-encodes to its original two bytes. -/
theorem sampleBytes_toInt16 (b0 b1 : Nat) (h0 : b0 < 256) (h1 : b1 < 256) :
    sampleBytes (toInt16 (b0 + 256 * b1)) = [b0, b1] := by
  simp only [sampleBytes, toInt16]
  split_ifs with h <;> simp only [List.cons.injEq, and_true] <;> constructor <;> omega

/-- `np.frombuffer(..., np.int16)` yields one sample per byte pair. -/
theorem bytesToSamples_length :
    ∀ bs : List Nat, (bytesToSamples bs).length = bs.length / 2 := by
  intro bs
  induction bs using bytesToSamples.induct with
  | case1 b0 b1 rest ih => simp [bytesToSamples, ih]; omega
  | case2 x h =>
      match x, h with
      | [], _ => simp [bytesToSamples]
      | [b], _ => simp [bytesToSamples]
      | b0 :: b1 :: rest, h => exact absurd rfl (h b0 b1 rest)

/-- Decoding an even-length byte list to int16 samples and re-encoding
yields the identical byte list. -/
theorem samplesToBytes_bytesToSamples :
    ∀ bs : List Nat, (∀ b ∈ bs, b < 256) → bs.length % 2 = 0 →
      samplesToBytes (bytesToSamples bs) = bs := by
  intro bs
  induction bs using bytesToSamples.induct with
  | case1 b0 b1 rest ih =>
      intro hb hlen
      simp only [bytesToSamples, samplesToBytes, List.map_cons, List.flatten_cons]
      rw [show sampleBytes (toInt16 (b0 + 256 * b1)) = [b0, b1] from
        sampleBytes_toInt16 b0 b1 (hb b0 (by simp)) (hb b1 (by simp))]
      have := ih (fun b hbm => hb b (by simp [hbm])) (by simp at hlen ⊢; omega)
      simp [samplesToBytes] at this
      simp [this]
  | case2 x h =>
      intro hb hlen
      match x, h with
      | [], _ => simp [bytesToSamples, samplesToBytes]
      | [b], _ => simp at hlen
      | b0 :: b1 :: rest, h => exact absurd rfl (h b0 b1 rest)

/-- The invariant of `read_stream`'s accumulation loop: re-encoding all
dispatched frames and appending the final partial buffer reconstructs
the initial buffer followed by every delivered byte in order; every
dispatched frame holds exactly `bufSize / 2` samples. -/
theorem assemble_spec (bufSize : Nat) (hb2 : bufSize % 2 = 0) (hpos : 0 < bufSize) :
    ∀ (chunks : List (List Nat)) (buf : List Nat),
      (∀ b ∈ buf, b < 256) → bytesOK chunks →
      chunksOK bufSize buf.length chunks → buf.length < bufSize →
      (((assemble bufSize buf chunks).1.map samplesToBytes).flatten
          ++ (assemble bufSize buf chunks).2 = buf ++ chunks.flatten) ∧
      (∀ f ∈ (assemble bufSize buf chunks).1, f.length = bufSize / 2) := by
  intro chunks
  induction chunks with
  | nil =>
      intro buf hbuf hby hok hlt
      simp [assemble]
  | cons c cs ih =>
      intro buf hbuf hby hok hlt
      obtain ⟨hclen, hok'⟩ := hok
      have hcby : ∀ b ∈ c, b < 256 := hby c (by simp)
      have hby' : bytesOK cs := fun c' hc' b hb => hby c' (by simp [hc']) b hb
      have hbuf' : ∀ b ∈ buf ++ c, b < 256 := by
        intro b hb
        rcases List.mem_append.mp hb with h | h
        · exact hbuf b h
        · exact hcby b h
      by_cases hfull : bufSize ≤ (buf ++ c).length
      · -- the buffer is exactly full and the frame is dispatched
        have hexact : (buf ++ c).length = bufSize := by
          simp only [List.length_append] at hfull ⊢
          omega
        have hok'' : chunksOK bufSize 0 cs := by
          have : (if bufSize ≤ buf.length + c.length then 0
              else buf.length + c.length) = 0 := by
            rw [if_pos (by simpa [List.length_append] using hfull)]
          rwa [this] at hok'
        have hIH := ih [] (by simp) hby' (by simpa using hok'') hpos
        have hrt : samplesToBytes (bytesToSamples (buf ++ c)) = buf ++ c :=
          samplesToBytes_bytesToSamples (buf ++ c) hbuf' (by rw [hexact]; exact hb2)
        constructor
        · simp only [assemble, if_pos hfull]
          simp only [List.map_cons, List.flatten_cons, hrt]
          rw [List.append_assoc]
          rw [hIH.1]
          simp
        · intro f hf
          simp only [assemble, if_pos hfull] at hf
          rcases List.mem_cons.mp hf with h | h
          · rw [h, bytesToSamples_length, hexact]
          · exact hIH.2 f h
      · -- the chunk only accumulates
        have hlt' : (buf ++ c).length < bufSize := by omega
        have hok'' : chunksOK bufSize (buf ++ c).length cs := by
          have : (if bufSize ≤ buf.length + c.length then 0
              else buf.length + c.length) = (buf ++ c).length := by
            rw [if_neg (by simpa [List.length_append] using hfull)]
            simp
          rwa [this] at hok'
        have hIH := ih (buf ++ c) hbuf' hby' hok'' hlt'
        constructor
        · simp only [assemble, if_neg hfull]
          rw [hIH.1]
          simp
        · intro f hf
          simp only [assemble, if_neg hfull] at hf
          exact hIH.2 f hf

/-- C8: for every byte stream delivered to `read_stream` in chunks that
respect the `read(buffer_size - len(raw_audio))` size bound, every
dispatched waveform holds exactly 15600 samples, and re-encoding the
dispatched waveforms as little-endian int16 bytes and appending the
retained partial buffer reproduces the input stream byte-for-byte — so
the emitted waveforms are non-overlapping, their concatenation is a
byte-prefix of the input, no sample straddles a frame boundary, and no
byte before the end of that common part is skipped or duplicated. -/
theorem C8_frame_stream (chunks : List (List Nat)) (hb : bytesOK chunks)
    (hc : chunksOK 31200 0 chunks) :
    (∀ f ∈ (assemble 31200 [] chunks).1, f.length = 15600) ∧
    ((assemble 31200 [] chunks).1.map samplesToBytes).flatten
        ++ (assemble 31200 [] chunks).2 = chunks.flatten := by
  have h := assemble_spec 31200 (by norm_num) (by norm_num) chunks []
    (by simp) hb (by simpa using hc) (by norm_num)
  exact ⟨fun f hf => by simpa using h.2 f hf, by simpa using h.1⟩

/-- C8 witness: the theorem applied to the delivered chunks
`[1, 2]` then `[3]`. -/
theorem C8_frame_stream_witness :
    (bytesOK [[1, 2], [3]] ∧ chunksOK 31200 0 [[1, 2], [3]]) ∧
    ((∀ f ∈ (assemble 31200 [] [[1, 2], [3]]).1, f.length = 15600) ∧
      ((assemble 31200 [] [[1, 2], [3]]).1.map samplesToBytes).flatten
          ++ (assemble 31200 [] [[1, 2], [3]]).2 =
        ([[1, 2], [3]] : List (List Nat)).flatten) :=
  ⟨⟨by simp [bytesOK], by simp [chunksOK]⟩,
   C8_frame_stream [[1, 2], [3]] (by simp [bytesOK]) (by simp [chunksOK])⟩

/-- C5: the code at the failing input.  When the decoder process exits,
every subsequent non-blocking `stdout.read` returns `b''`, which is
falsy, so `read_stream` takes the `time.sleep(0.1)` branch forever: no
iteration of the loop ever clears `self.running` or sets the shutdown
event (first conjunct, for every state and read result), and concretely
a running worker holding a 2-byte partial frame that sees five
consecutive end-of-file reads is left unchanged — still `running`, the
partial buffer retained and nothing dispatched — rather than stopping
with `DecoderExited` so the supervisor could restart it. -/
theorem C5_decoder_exit_not_handled :
    (∀ (bufSize : Nat) (s : RSState) (r : ReadResult),
      (readStreamStep bufSize s r).1.running = s.running ∧
      (readStreamStep bufSize s r).1.shutdownEvent = s.shutdownEvent) ∧
    runReadStream 31200 ⟨true, false, [7, 8]⟩ (List.replicate 5 ReadResult.eof) =
      (⟨true, false, [7, 8]⟩, []) := by
  constructor
  · intro bufSize s r
    cases r <;> simp only [readStreamStep] <;> split_ifs <;> simp
  · decide

/-- C1: the code at the failing input.  A stderr line containing
`"401 Unauthorized"` makes `_handle_stderr_line` call `stop()` on that
stream; `stop()` clears the stream's running flag but ALSO sets the
process-wide `shutdown_event`.  With two configured cameras both
running, after the fatal line on `front`: the shared shutdown event is
set, the monitor loop's guard is false (so it exits and its next tick
performs no restart), the other camera's read-loop guard is false, and
the summary loop's guard is false — contradicting the claim that only
the failed worker stops while the monitor keeps running and retries. -/
theorem C1_fatal_line_stops_everything :
    handleStderrLine ⟨false, true, [("front", true), ("back", true)]⟩ "front"
        "rtsp error: HTTP error 401 Unauthorized " =
      ⟨true, true, [("front", false), ("back", true)]⟩ ∧
    monitorGuard ⟨true, true, [("front", false), ("back", true)]⟩ = false ∧
    monitorTick ["front", "back"] ⟨true, true, [("front", false), ("back", true)]⟩ =
      ⟨true, true, [("front", false), ("back", true)]⟩ ∧
    readGuard ⟨true, true, [("front", false), ("back", true)]⟩ "back" = false ∧
    summaryGuard ⟨true, true, [("front", false), ("back", true)]⟩ = false := by
  decide

/-- C2, counterexample: `stop()` begins with `if not self.running:
return`, so a call on a stream whose running flag is already false
leaves the shutdown event exactly as it was — here still unset — and
the claim that EVERY call to `stop()` sets the process-wide
`shutdown_event` in its post-state is false. -/
theorem C2_counterexample :
    (stopStream ⟨false, true, [("cam1", false)]⟩ "cam1").shutdownEvent = false := by
  decide

/-- C2 (amended): every call to `stop()` on a stream whose running flag
is true — which covers the stops triggered by a fatal stderr line and by
the 30-second startup watchdog on a running stream — sets the
process-wide `shutdown_event`; and because that single event object is
shared, the post-state guard of the supervisor's monitor loop, of
`log_summary`, and of every stream's read loops is false: stopping any
one running stream signals global shutdown to all of them.  (A call on
a non-running stream returns early and changes nothing.) -/
theorem C2_stop_running_signals_shutdown (sys : Sys) (cam : String)
    (h : lookupRunning sys cam = true) :
    (stopStream sys cam).shutdownEvent = true ∧
    monitorGuard (stopStream sys cam) = false ∧
    summaryGuard (stopStream sys cam) = false ∧
    ∀ cam', readGuard (stopStream sys cam) cam' = false := by
  unfold stopStream
  rw [h]
  simp [monitorGuard, summaryGuard, readGuard]

/-- C2 witness: the amended theorem applied to a one-camera system whose
stream is running and whose shutdown event is still clear. -/
theorem C2_stop_running_signals_shutdown_witness :
    (lookupRunning ⟨false, true, [("cam1", true)]⟩ "cam1" = true) ∧
    ((stopStream ⟨false, true, [("cam1", true)]⟩ "cam1").shutdownEvent = true ∧
      monitorGuard (stopStream ⟨false, true, [("cam1", true)]⟩ "cam1") = false ∧
      summaryGuard (stopStream ⟨false, true, [("cam1", true)]⟩ "cam1") = false ∧
      ∀ cam', readGuard (stopStream ⟨false, true, [("cam1", true)]⟩ "cam1") cam' = false) :=
  ⟨by decide, C2_stop_running_signals_shutdown ⟨false, true, [("cam1", true)]⟩ "cam1" (by decide)⟩

/-- Every min_score produced by a successful run of the filters loop is
in `[0, 1]`, provided the fallback `default_min_score` is. -/
theorem validateFilters_range (dms : ℚ) (hd : 0 ≤ dms ∧ dms ≤ 1) :
    ∀ (l : List (String × Option ℚ)) (fs : List (String × ℚ)),
      validateFilters dms l = .ok fs → ∀ p ∈ fs, 0 ≤ p.2 ∧ p.2 ≤ 1 := by
  intro l
  induction l with
  | nil =>
      intro fs h p hp
      simp only [validateFilters] at h
      cases h
      simp at hp
  | cons e rest ih =>
      intro fs h p hp
      obtain ⟨g, ms⟩ := e
      cases ms with
      | none => simp [validateFilters] at h
      | some v =>
          simp only [validateFilters] at h
          cases hrec : validateFilters dms rest with
          | error e0 => rw [hrec] at h; cases h
          | ok tail =>
              rw [hrec] at h
              cases h
              rcases List.mem_cons.mp hp with h1 | h1
              · subst h1
                by_cases hv : 0 ≤ v ∧ v ≤ 1
                · simp [if_pos hv]; exact hv
                · simp [if_neg hv]; exact hd
              · exact ih tail hrec p h1

/-- When every filters entry carries a `min_score` key, the loop cannot
raise and yields some validated list. -/
theorem validateFilters_ok_of_no_none (dms : ℚ) :
    ∀ l : List (String × Option ℚ), (∀ p ∈ l, p.2 ≠ none) →
      ∃ fs, validateFilters dms l = .ok fs := by
  intro l
  induction l with
  | nil => intro _; exact ⟨[], rfl⟩
  | cons e rest ih =>
      intro hno
      obtain ⟨g, ms⟩ := e
      cases ms with
      | none => exact absurd rfl (hno (g, none) (by simp))
      | some v =>
          obtain ⟨tail, htail⟩ := ih (fun p hp => hno p (by simp [hp]))
          exact ⟨(g, if 0 ≤ v ∧ v ≤ 1 then v else dms) :: tail, by
            simp only [validateFilters, htail]⟩

/-- A filters entry with no `min_score` key makes the loop raise the
`TypeError` from `0.0 <= None`. -/
theorem validateFilters_error_of_none (dms : ℚ) :
    ∀ l : List (String × Option ℚ), (∃ g, (g, (none : Option ℚ)) ∈ l) →
      validateFilters dms l = .error .uncaughtTypeError := by
  intro l
  induction l with
  | nil => rintro ⟨g, hg⟩; simp at hg
  | cons e rest ih =>
      rintro ⟨g, hg⟩
      obtain ⟨g0, ms⟩ := e
      cases ms with
      | none => simp [validateFilters]
      | some v =>
          have : (g, (none : Option ℚ)) ∈ rest := by
            rcases List.mem_cons.mp hg with h1 | h1
            · cases h1
            · exact h1
          simp only [validateFilters, ih ⟨g, this⟩]

/-- C9, counterexample: a configuration whose `events.window_detect` is 0
(below the documented minimum of 1) loads successfully with
`window_detect = 0` — `yamcam_config.py` applies no range check to
`window_detect`, `persistence` or `decay`, so the out-of-range value is
NOT replaced by the documented safe default 5. -/
theorem C9_counterexample :
    Except.map (fun s => s.window_detect)
        (loadConfig ⟨⟨none, none, none⟩, some ⟨some 0, some 3, some 15⟩,
          some ⟨some ["dog"], some [("dog", some (mkRat 1 2))]⟩, some ["front"]⟩) =
      .ok 0 ∧
    ¬ ((1 : Int) ≤ 0) := by
  constructor
  · rfl
  · decide

/-- C9 (amended): configuration loading clamps `default_min_score`,
`noise_threshold` and `top_k` into their documented ranges (an in-range
value is kept; anything else becomes the documented default), and every
per-group filter `min_score` surviving the loop lies in `[0, 1]`;
`window_detect`, `persistence` and `decay` are NOT range-checked — the
raw values pass through unchanged (defaults apply only to missing keys
or a missing section), so values below 1 are kept; and a missing
`cameras` section terminates the process at startup. -/
theorem C9_config_validation (c : RawConfig)
    (hf : ∀ p ∈ ((c.sounds.getD ⟨none, none⟩).filters.getD []), p.2 ≠ (none : Option ℚ)) :
    (0 ≤ loadDefaultMinScore c.general ∧ loadDefaultMinScore c.general ≤ 1) ∧
    (0 ≤ loadNoiseThreshold c.general ∧ loadNoiseThreshold c.general ≤ 1) ∧
    (1 ≤ loadTopK c.general ∧ loadTopK c.general ≤ 20) ∧
    (∀ e, c.events = some e →
      loadEvents c.events = (e.window_detect.getD 5, e.persistence.getD 3, e.decay.getD 15)) ∧
    (∀ fs, validateFilters (loadDefaultMinScore c.general)
        ((c.sounds.getD ⟨none, none⟩).filters.getD []) = .ok fs →
      ∀ p ∈ fs, 0 ≤ p.2 ∧ p.2 ≤ 1) ∧
    (c.cameras = none → loadConfig c = .error .fatalExit) := by
  have hdms : 0 ≤ loadDefaultMinScore c.general ∧ loadDefaultMinScore c.general ≤ 1 := by
    simp only [loadDefaultMinScore]
    split_ifs with h
    · exact h
    · exact ⟨by decide, by decide⟩
  refine ⟨hdms, ?_, ?_, ?_, ?_, ?_⟩
  · simp only [loadNoiseThreshold]
    split_ifs with h
    · exact h
    · exact ⟨by decide, by decide⟩
  · simp only [loadTopK]
    split_ifs with h
    · exact h
    · exact ⟨by decide, by decide⟩
  · intro e he
    rw [he]
    simp [loadEvents]
  · intro fs hfs
    exact validateFilters_range _ hdms _ fs hfs
  · intro hcam
    obtain ⟨fs, hfs⟩ := validateFilters_ok_of_no_none (loadDefaultMinScore c.general) _ hf
    simp only [loadConfig, hfs, hcam]

/-- C9 witness: the amended theorem applied to a configuration with an
out-of-range `default_min_score`, `events.window_detect = 0`, a keyed
filters entry, and no `cameras` section. -/
theorem C9_config_validation_witness :
    (∀ p ∈ ((((⟨⟨some (mkRat 3 2), some 2, some 100⟩, some ⟨some 0, none, none⟩,
          some ⟨none, some [("dog", some 2)]⟩, none⟩ : RawConfig)).sounds.getD
            ⟨none, none⟩).filters.getD []), p.2 ≠ (none : Option ℚ)) ∧
    ((0 ≤ loadDefaultMinScore ⟨some (mkRat 3 2), some 2, some 100⟩ ∧
        loadDefaultMinScore ⟨some (mkRat 3 2), some 2, some 100⟩ ≤ 1) ∧
      (0 ≤ loadNoiseThreshold ⟨some (mkRat 3 2), some 2, some 100⟩ ∧
        loadNoiseThreshold ⟨some (mkRat 3 2), some 2, some 100⟩ ≤ 1) ∧
      (1 ≤ loadTopK ⟨some (mkRat 3 2), some 2, some 100⟩ ∧
        loadTopK ⟨some (mkRat 3 2), some 2, some 100⟩ ≤ 20) ∧
      (∀ e, (some (⟨some 0, none, none⟩ : RawEvents) = some e) →
        loadEvents (some (⟨some 0, none, none⟩ : RawEvents)) =
          (e.window_detect.getD 5, e.persistence.getD 3, e.decay.getD 15)) ∧
      (∀ fs, validateFilters (loadDefaultMinScore ⟨some (mkRat 3 2), some 2, some 100⟩)
          ((((⟨⟨some (mkRat 3 2), some 2, some 100⟩, some ⟨some 0, none, none⟩,
            some ⟨none, some [("dog", some 2)]⟩, none⟩ : RawConfig)).sounds.getD
              ⟨none, none⟩).filters.getD []) = .ok fs →
        ∀ p ∈ fs, 0 ≤ p.2 ∧ p.2 ≤ 1) ∧
      ((⟨⟨some (mkRat 3 2), some 2, some 100⟩, some ⟨some 0, none, none⟩,
          some ⟨none, some [("dog", some 2)]⟩, none⟩ : RawConfig).cameras = none →
        loadConfig ⟨⟨some (mkRat 3 2), some 2, some 100⟩, some ⟨some 0, none, none⟩,
          some ⟨none, some [("dog", some 2)]⟩, none⟩ = .error .fatalExit)) :=
  ⟨by decide,
   C9_config_validation ⟨⟨some (mkRat 3 2), some 2, some 100⟩, some ⟨some 0, none, none⟩,
     some ⟨none, some [("dog", some 2)]⟩, none⟩ (by decide)⟩

/-- C10: for every configuration whose `sounds.filters` contains a group
entry without a `min_score` key, the module-level validation loop
evaluates `0.0 <= None`, which raises an uncaught `TypeError`, and
loading fails at startup instead of falling back to
`default_min_score` for that group. -/
theorem C10_missing_min_score_raises (c : RawConfig) (g : String)
    (h : (g, (none : Option ℚ)) ∈ ((c.sounds.getD ⟨none, none⟩).filters.getD [])) :
    loadConfig c = .error .uncaughtTypeError := by
  simp only [loadConfig,
    validateFilters_error_of_none (loadDefaultMinScore c.general) _ ⟨g, h⟩]

/-- C10 witness: the theorem applied to a configuration whose single
filters entry `dog` has no `min_score` key. -/
theorem C10_missing_min_score_raises_witness :
    (("dog", (none : Option ℚ)) ∈
      ((((⟨⟨none, none, none⟩, none, some ⟨some ["dog"], some [("dog", none)]⟩,
        some ["front"]⟩ : RawConfig)).sounds.getD ⟨none, none⟩).filters.getD [])) ∧
    loadConfig (⟨⟨none, none, none⟩, none, some ⟨some ["dog"], some [("dog", none)]⟩,
        some ["front"]⟩ : RawConfig) = .error .uncaughtTypeError :=
  ⟨by decide,
   C10_missing_min_score_raises ⟨⟨none, none, none⟩, none,
     some ⟨some ["dog"], some [("dog", none)]⟩, some ["front"]⟩ "dog" (by decide)⟩

end Yamcam
